import Mathlib

/-!
Verification development for the Java-upgrade orchestration service.

The definitions below are a shallow embedding of the two source files:

* `src/main.py`, endpoint `upgrade_java` (lines 176-243): the response
  extraction-and-apply pass that parses the completion text of the model
  into per-file blocks and writes them to disk, and

* `src/utils.py`: `detect_java_version` (manifest scanning plus the
  suggested-version filter) and `find_java_files` (the file collector).

Modelling conventions:

* Strings are Lean `String`; all character-level operations used by the
  Python code (`startswith`, `endswith`, `strip`, slicing, `in`,
  `splitlines`, `split`) are re-implemented structurally over `String.data`
  so that every definition evaluates by `decide` on concrete inputs.
* Filesystem paths are modelled as an absolute-flag plus the list of
  nonempty components obtained by splitting on the separator; this models
  `os.path.join`, `os.path.realpath` (for absolute, symlink-free paths) and
  the `os.path.commonpath` containment test of main.py line 191.
* Disk writes are observed as a list of (path, content) pairs; the
  operating-system level failure of an individual `open`/`write` call
  (caught at main.py lines 216-218) and directory creation are outside the
  model, so modelled writes always succeed.
-/

/-! ### String literals appearing in the source -/

def hdrStartS : String := "--- File: "

def hdrEndS : String := " ---"

def fenceS : String := "```"

def slashS : String := "/"

def nlS : String := "\n"

def dotS : String := "."

def dotdotS : String := ".."

def emptyS : String := ""

def javaSufS : String := ".java"

def buildS : String := "build"

def targetS : String := "target"

def mcsS : String := "maven.compiler.source"

def javaVerS : String := "java.version"

def unknownS : String := "Unknown"

def msgIncA : String := "LLM response for "

def msgIncB : String := " was incomplete."

/-! ### Character-list utilities modelling Python string primitives -/

/-- The characters stripped by Python `str.strip()` with no argument
(the six ASCII whitespace characters). -/
def isWsChar (c : Char) : Bool :=
  c = ' ' || c = '\t' || c = '\n' || c = '\r' || c = Char.ofNat 11 || c = Char.ofNat 12

/-- Holds when the first list is an initial segment of the second. -/
def listStarts : List Char → List Char → Bool
  | [], _ => true
  | _ :: _, [] => false
  | p :: ps, c :: cs => p == c && listStarts ps cs

def listEnds (ps cs : List Char) : Bool :=
  listStarts ps.reverse cs.reverse

/-- Python `str.strip()` on a character list. -/
def stripChars (cs : List Char) : List Char :=
  ((cs.dropWhile isWsChar).reverse.dropWhile isWsChar).reverse

/-- Python `s.strip()`. -/
def pyStrip (s : String) : String :=
  String.mk (stripChars s.data)

/-- Python `s.startswith(p)`. -/
def pyStarts (s p : String) : Bool :=
  listStarts p.data s.data

/-- Python `s.endswith(p)`. -/
def pyEnds (s p : String) : Bool :=
  listEnds p.data s.data

/-- Remove the last `k` characters (models a `[: -k]` slice end). -/
def dropRightChars (k : Nat) (cs : List Char) : List Char :=
  cs.take (cs.length - k)

/-- Split a character list at every occurrence of `sep` (models
Python `str.split(sep)` for a one-character separator). -/
def splitCharsOn (sep : Char) : List Char → List (List Char)
  | [] => [[]]
  | c :: cs =>
    match splitCharsOn sep cs with
    | [] => [[c]]
    | g :: gs => if c = sep then [] :: g :: gs else (c :: g) :: gs

/-- Holds when the first list occurs as a contiguous substring of the
second (models the Python `in` operator on strings). -/
def containsSub (ps : List Char) : List Char → Bool
  | [] => listStarts ps []
  | c :: cs => listStarts ps (c :: cs) || containsSub ps cs

/-- Python `p in s` for strings. -/
def pyContains (s p : String) : Bool :=
  containsSub p.data s.data

def allDigits (cs : List Char) : Bool :=
  cs.all (fun c => c.isDigit)

def digitsVal (cs : List Char) : Nat :=
  cs.foldl (fun a c => a * 10 + (c.toNat - 48)) 0

/-- Python `str.splitlines()` restricted to the line terminators that can
occur in the service responses (newline, carriage return, CRLF); no
trailing empty line is produced for a terminal newline. -/
def splitLinesChars : List Char → List (List Char)
  | [] => []
  | '\r' :: '\n' :: cs => [] :: splitLinesChars cs
  | '\r' :: cs => [] :: splitLinesChars cs
  | '\n' :: cs => [] :: splitLinesChars cs
  | c :: cs =>
    match splitLinesChars cs with
    | [] => [[c]]
    | g :: gs => (c :: g) :: gs

def pySplitLines (s : String) : List String :=
  (splitLinesChars s.data).map (fun g => String.mk g)

/-! ### Path model

Models the path arithmetic of main.py lines 186-194: `os.path.join`,
`os.path.realpath` (canonicalization of dot and dot-dot components for
absolute, symlink-free paths) and `os.path.commonpath` containment. -/

structure PyPath where
  isAbs : Bool
  comps : List String
deriving DecidableEq, Repr

/-- Parse a path string into the path model (splitting on the separator and
discarding empty components, as realpath-style normalization does). -/
def splitPath (s : String) : PyPath :=
  { isAbs := listStarts [ '/' ] s.data,
    comps := ((splitCharsOn '/' s.data).map (fun g => String.mk g)).filter
      (fun x => x != emptyS) }

/-- Models `os.path.join a b`: an absolute second argument discards the first. -/
def joinPath (a b : PyPath) : PyPath :=
  if b.isAbs then b else { isAbs := a.isAbs, comps := a.comps ++ b.comps }

def canonStep (acc : List String) (c : String) : List String :=
  if c = dotS then acc
  else if c = dotdotS then acc.dropLast
  else acc ++ [c]

/-- Resolve `.` and `..` components left to right; for an absolute path a
leading `..` stays at the root, as `os.path.realpath` does. -/
def canonComps (cs : List String) : List String :=
  cs.foldl canonStep []

/-- Models `os.path.realpath` for an absolute path with no symlinks. -/
def canonPath (p : PyPath) : PyPath :=
  { isAbs := p.isAbs, comps := canonComps p.comps }

/-- Component-wise list prefix test. -/
def compsLe : List String → List String → Bool
  | [], _ => true
  | _ :: _, [] => false
  | a :: as, b :: bs => a == b && compsLe as bs

/-- The path-containment test of main.py line 191:
`os.path.commonpath([realpath(root), realpath(p)]) == realpath(root)`. -/
def pathSafe (root p : PyPath) : Bool :=
  compsLe (canonPath root).comps (canonPath p).comps

/-- Models `os.path.basename` (posix): the part after the last separator. -/
def pyBasename (s : String) : String :=
  match (splitCharsOn '/' s.data).getLast? with
  | some g => String.mk g
  | none => s

/-! ### The extraction-and-apply pass of `upgrade_java` (main.py 176-233) -/

/-- The outcome of one extraction-and-apply pass:
`written` is `updated_files_count`, `errors` is `errors_applying_changes`,
and `writes` records each successful disk write as a (path, content) pair
in the order performed. -/
structure ApplyOutcome where
  written : Nat
  errors : List String
  writes : List (PyPath × String)
deriving DecidableEq, Repr

def outZero : ApplyOutcome := ⟨0, [], []⟩

def outSeq (a b : ApplyOutcome) : ApplyOutcome :=
  ⟨a.written + b.written, a.errors ++ b.errors, a.writes ++ b.writes⟩

/-- main.py line 184: `line.startswith("--- File: ") and line.endswith(" ---")`. -/
def isHeaderLine (l : String) : Bool :=
  pyStarts l hdrStartS && pyEnds l hdrEndS

/-- main.py line 186: `line[len("--- File: "): -len(" ---")].strip()`. -/
def capturePath (l : String) : String :=
  pyStrip (String.mk (dropRightChars (hdrEndS.data.length)
    ((l.data).drop (hdrStartS.data.length))))

/-- main.py lines 197 and 201: a fence line is one whose `strip()` equals
the literal three-backtick token. -/
def isFenceLine (l : String) : Bool :=
  pyStrip l == fenceS

/-- main.py line 224: the per-file error recorded for a truncated block. -/
def incompleteMsg (rel : String) : String :=
  msgIncA ++ pyBasename rel ++ msgIncB

/-- Python `"\n".join(lines)` (main.py line 209). -/
def nlJoin : List String → String
  | [] => emptyS
  | [x] => x
  | x :: xs => x ++ nlS ++ nlJoin xs

/-- Parser state of the scanning loop: `seeking` between blocks,
`afterHeader` just past a header whose resolved target passed the
containment check, `collecting` inside a fenced body. -/
inductive PState where
  | seeking
  | afterHeader (rel : String) (tgt : PyPath)
  | collecting (rel : String) (tgt : PyPath) (acc : List String)
deriving DecidableEq, Repr

/-- Processing of one line in seeking position (main.py lines 184-194):
on a header line, capture the path, join it against the root, and keep the
block only when the containment check passes; any other line is skipped. -/
def seekStep (root : PyPath) (l : String) : PState :=
  if isHeaderLine l then
    if pathSafe root (joinPath root (splitPath (capturePath l))) then
      PState.afterHeader (capturePath l) (joinPath root (splitPath (capturePath l)))
    else PState.seeking
  else PState.seeking

/-- One step of the scanning loop on one line, returning the next state and
the outcome contribution of this step.  In `afterHeader`, a non-fence line
is re-examined in seeking position without being consumed twice, exactly as
the source continues from the current index (main.py lines 196-229). -/
def lineStep (root : PyPath) (st : PState) (l : String) : PState × ApplyOutcome :=
  match st with
  | PState.seeking => (seekStep root l, outZero)
  | PState.afterHeader rel tgt =>
    if isFenceLine l then (PState.collecting rel tgt [], outZero)
    else (seekStep root l, outZero)
  | PState.collecting rel tgt acc =>
    if isFenceLine l then (PState.seeking, ⟨1, [], [(tgt, nlJoin acc)]⟩)
    else (PState.collecting rel tgt (acc ++ [l]), outZero)

/-- Contribution at end of input: a block still collecting records the
truncation error (main.py lines 221-225); any other state ends cleanly. -/
def endOut : PState → ApplyOutcome
  | PState.collecting rel _ _ => ⟨0, [incompleteMsg rel], []⟩
  | _ => outZero

def runFrom (root : PyPath) (st : PState) : List String → ApplyOutcome
  | [] => endOut st
  | l :: ls => outSeq (lineStep root st l).2 (runFrom root (lineStep root st l).1 ls)

/-- The whole extraction-and-apply pass of main.py lines 176-233 on the
line sequence of the completion text. -/
def extractApply (root : PyPath) (lines : List String) : ApplyOutcome :=
  runFrom root PState.seeking lines

/-- The pass applied to the raw completion string: main.py line 162 strips
the response, line 180 splits it into lines. -/
def upgradeApplyText (root : PyPath) (text : String) : ApplyOutcome :=
  extractApply root (pySplitLines (pyStrip text))

/-- The two reply shapes of main.py lines 236-243. -/
inductive UpgradeReply where
  | withErrors (details : List String)
  | ok (count : Nat)
deriving DecidableEq, Repr

/-- main.py lines 236-243: a non-empty error list yields the
success-with-errors reply, otherwise the success reply. -/
def replyOf (o : ApplyOutcome) : UpgradeReply :=
  if o.errors = [] then UpgradeReply.ok o.written else UpgradeReply.withErrors o.errors

/-! ### Version detection (utils.py 87-157) -/

/-- One namespaced `properties` element of a Maven manifest: its direct
children as (tag, optional text) pairs in document order. -/
structure PropsElem where
  children : List (String × Option String)
deriving DecidableEq, Repr

/-- Models `ElementTree.Element.find` on direct children: `none` when no
child has the tag, otherwise the first matching child with its text. -/
def childText (p : PropsElem) (tag : String) : Option (Option String) :=
  (p.children.find? (fun kv => kv.1 == tag)).map (fun kv => kv.2)

/-- utils.py line 103 and 111: the element must exist and its text must be
truthy (present and nonempty). -/
def goodText : Option (Option String) → Option String
  | some (some t) => if t != emptyS then some t else none
  | _ => none

/-- One scanning loop of utils.py lines 101-114: the first properties
element with a truthy child of the given tag wins, and its text is
stripped. -/
def firstPropText (tag : String) : List PropsElem → Option String
  | [] => none
  | p :: ps =>
    match goodText (childText p tag) with
    | some t => some (pyStrip t)
    | none => firstPropText tag ps

/-- The Maven portion of `detect_java_version` (utils.py 89-114):
`current_version` starts as the sentinel `Unknown`; the first loop scans for
`maven.compiler.source`, and the `java.version` loop runs only when
`current_version` is still the sentinel. -/
def mvnDetect (props : List PropsElem) : String :=
  let v1 :=
    match firstPropText mcsS props with
    | some v => v
    | none => unknownS
  if v1 == unknownS then
    match firstPropText javaVerS props with
    | some v => v
    | none => unknownS
  else v1

/-! ### The suggested-version filter (utils.py 144-153)

`int(float(current_version))` is modelled by parsing the standard decimal
grammar (optional sign, digits, optional fractional part, optional
exponent) into an exact pair (numerator, power-of-ten denominator) and
truncating toward zero.  Idealizations relative to CPython: the binary
double rounding of `float` is replaced by exact decimal arithmetic;
underscore digit separators and the special values inf and nan are outside
the model (in the source, `int(float("inf"))` raises an uncaught
OverflowError, and nan raises a ValueError that is caught, yielding the
unfiltered list, like every unparseable string). -/

def parseSignChars : List Char → Int × List Char
  | '+' :: cs => (1, cs)
  | '-' :: cs => (-1, cs)
  | cs => (1, cs)

def splitAtExpChar : List Char → List Char × Option (List Char)
  | [] => ([], none)
  | c :: cs =>
    if c = 'e' || c = 'E' then ([], some cs)
    else
      match splitAtExpChar cs with
      | (m, r) => (c :: m, r)

def splitAtDotChar : List Char → List Char × Option (List Char)
  | [] => ([], none)
  | c :: cs =>
    if c = '.' then ([], some cs)
    else
      match splitAtDotChar cs with
      | (m, r) => (c :: m, r)

/-- Unsigned mantissa: digits, optionally with one decimal point; at least
one digit overall.  Returns the scaled integer value and the length of the
fractional part. -/
def parseMant (cs : List Char) : Option (Nat × Nat) :=
  match splitAtDotChar cs with
  | (ip, none) =>
    if !ip.isEmpty && allDigits ip then some (digitsVal ip, 0) else none
  | (ip, some fp) =>
    if (!ip.isEmpty || !fp.isEmpty) && allDigits ip && allDigits fp then
      some (digitsVal ip * 10 ^ fp.length + digitsVal fp, fp.length)
    else none

def parseExpChars (cs : List Char) : Option Int :=
  match parseSignChars cs with
  | (sg, ds) =>
    if !ds.isEmpty && allDigits ds then some (sg * (digitsVal ds : Int)) else none

/-- Fold a decimal exponent into the (numerator, fraction-length) pair. -/
def scaleParts (n : Int) (f : Nat) (e : Int) : Int × Nat :=
  if (f : Int) ≤ e then (n * (10 : Int) ^ ((e - (f : Int)).toNat), 0)
  else (n, ((f : Int) - e).toNat)

/-- Python `float(s)` for finite decimal literals, as an exact value
`n / 10 ^ d` represented by the pair `(n, d)`; `none` models ValueError. -/
def pyFloatParse (s : String) : Option (Int × Nat) :=
  let t := stripChars s.data
  match splitAtExpChar t with
  | (mc, ec) =>
    match parseSignChars mc with
    | (sg, md) =>
      match parseMant md with
      | none => none
      | some (mv, f) =>
        match ec with
        | none => some (sg * (mv : Int), f)
        | some es =>
          match parseExpChars es with
          | none => none
          | some e => scaleParts (sg * (mv : Int)) f e

/-- Models `int(x)` truncation toward zero of the value `n / 10 ^ d`. -/
def pyTrunc (nd : Int × Nat) : Int :=
  match nd with
  | (n, d) =>
    if 0 ≤ n then ((n.toNat / 10 ^ d : Nat) : Int)
    else -((((-n).toNat / 10 ^ d : Nat)) : Int)

/-- Mathematical floor of the value `n / 10 ^ d`. -/
def floorParts (nd : Int × Nat) : Int :=
  match nd with
  | (n, d) =>
    if 0 ≤ n then ((n.toNat / 10 ^ d : Nat) : Int)
    else if (-n).toNat % 10 ^ d = 0 then -((((-n).toNat / 10 ^ d : Nat)) : Int)
    else -((((-n).toNat / 10 ^ d : Nat)) : Int) - 1

/-- Python `int(s)` for a decimal integer literal. -/
def pyIntOf (s : String) : Option Int :=
  match parseSignChars (stripChars s.data) with
  | (sg, ds) =>
    if !ds.isEmpty && allDigits ds then some (sg * (digitsVal ds : Int)) else none

/-- utils.py line 90: the fixed candidate list. -/
def suggestedCandidates : List String := ["11", "17", "21"]

def candidateVal (v : String) : Int :=
  (pyIntOf v).getD 0

/-- utils.py lines 144-153: on a parseable detected version, keep the
candidates whose integer value exceeds the truncated detected version; on a
parse failure the candidate list is left unfiltered. -/
def filterSuggestions (cur : String) : List String :=
  match pyFloatParse cur with
  | some nd => suggestedCandidates.filter (fun v => pyTrunc nd < candidateVal v)
  | none => suggestedCandidates

/-! ### The file collector (utils.py 160-169)

The walked tree is abstracted as the list of its files in walk order, each
given by the directory components under the root and the file name; the
directory path string handed to the substring test is rebuilt with
`os.path.join` exactly as `os.walk` builds it. -/

structure FsFile where
  dirs : List String
  fname : String
deriving DecidableEq, Repr

/-- Models `os.path.join a b` on strings, for a non-absolute second argument. -/
def joinStr (a b : String) : String :=
  if pyEnds a slashS || a == emptyS then a ++ b else a ++ slashS ++ b

/-- The dirpath that `os.walk` yields for a directory reached from `root`
through the components `dirs`. -/
def dirPathOf (root : String) (dirs : List String) : String :=
  dirs.foldl joinStr root

/-- utils.py 160-169: keep files named `*.java` whose dirpath string
contains neither `build` nor `target` as a substring. -/
def findJavaFiles (root : String) (fs : List FsFile) : List String :=
  fs.filterMap (fun f =>
    if pyEnds f.fname javaSufS then
      if !(pyContains (dirPathOf root f.dirs) buildS)
          && !(pyContains (dirPathOf root f.dirs) targetS) then
        some (joinStr (dirPathOf root f.dirs) f.fname)
      else none
    else none)

/-- Modelled from the spec: the collector the claim describes, which
excludes precisely the paths having a `build` or `target` path component
(stated for comparison with `findJavaFiles`, which the source implements
with a substring test on the dirpath). -/
def specJavaFiles (root : String) (fs : List FsFile) : List String :=
  fs.filterMap (fun f =>
    if pyEnds f.fname javaSufS
        && !((splitPath (joinStr (dirPathOf root f.dirs) f.fname)).comps.any
          (fun c => c == buildS || c == targetS)) then
      some (joinStr (dirPathOf root f.dirs) f.fname)
    else none)

/-- The header line produced for a captured path (used to state the
block-shaped claims). -/
def headerFor (cap : String) : String :=
  hdrStartS ++ cap ++ hdrEndS

/-- Invariant carried by the scanning loop: any target path held by the
state has passed the containment check. -/
def stateSafe (root : PyPath) : PState → Prop
  | PState.seeking => True
  | PState.afterHeader _ tgt => pathSafe root tgt = true
  | PState.collecting _ tgt _ => pathSafe root tgt = true

/-! ### Concrete inputs used by witnesses and counterexamples -/

def projRootS : String := "/tmp/proj"

def projRootP : PyPath := splitPath projRootS

def passwdHeaderS : String := "--- File: ../../etc/passwd ---"

def c1CexLines : List String := [passwdHeaderS, "```", "root:x:0:0", "```"]

def relSrcAS : String := "src/A.java"

def goodHeaderS : String := "--- File: src/A.java ---"

def xLineS : String := "x"

def c1GoodLines : List String := [goodHeaderS, "```", "x", "```"]

def c2InstructedLines : List String :=
  ["```src/main/App.java", "public class App", "```"]

def wsFenceS : String := " ```"

def aJavaS : String := "A.java"

def absAS : String := "/tmp/proj/src/A.java"

def c6CexLines : List String := ["--- File: A.java ---", " ```", "x", "```"]

def oneEightS : String := "1.8"

def sevTeenS : String := "17"

def twentyOneS : String := "21"

def c8Props : List PropsElem :=
  [⟨[(mcsS, some unknownS), (javaVerS, some sevTeenS)]⟩]

def c8WitProps : List PropsElem := [⟨[(mcsS, some sevTeenS)]⟩]

def c9CexFs : List FsFile := [⟨["builder"], "A.java"⟩]

def c9CexPathS : String := "/tmp/proj/builder/A.java"

/-! ### Basic lemmas about the embedding -/

theorem strDataAppend (a b : String) : (a ++ b).data = a.data ++ b.data := rfl

theorem strMkData (s : String) : String.mk s.data = s := rfl

theorem outSeq_zero_left (b : ApplyOutcome) : outSeq outZero b = b := by
  cases b
  simp [outSeq, outZero]

theorem outSeq_zero_right (a : ApplyOutcome) : outSeq a outZero = a := by
  cases a
  simp [outSeq, outZero]

theorem listStarts_append (xs ys : List Char) : listStarts xs (xs ++ ys) = true := by
  induction xs with
  | nil => rfl
  | cons c cs ih => simp [listStarts, ih]

theorem headerFor_data (cap : String) :
    (headerFor cap).data = hdrStartS.data ++ (cap.data ++ hdrEndS.data) := by
  simp [headerFor, strDataAppend, List.append_assoc]

theorem isHeaderLine_headerFor (cap : String) : isHeaderLine (headerFor cap) = true := by
  unfold isHeaderLine pyStarts pyEnds listEnds
  have h1 : listStarts hdrStartS.data (headerFor cap).data = true := by
    rw [headerFor_data]
    exact listStarts_append _ _
  have h2 : listStarts hdrEndS.data.reverse (headerFor cap).data.reverse = true := by
    rw [headerFor_data]
    rw [show (hdrStartS.data ++ (cap.data ++ hdrEndS.data)).reverse
        = hdrEndS.data.reverse ++ (cap.data.reverse ++ hdrStartS.data.reverse) from by
      simp [List.reverse_append]]
    exact listStarts_append _ _
  simp [h1, h2]

theorem capturePath_headerFor (cap : String) (h : pyStrip cap = cap) :
    capturePath (headerFor cap) = cap := by
  unfold capturePath
  rw [headerFor_data, List.drop_left]
  have hr : dropRightChars hdrEndS.data.length (cap.data ++ hdrEndS.data) = cap.data := by
    unfold dropRightChars
    rw [show (cap.data ++ hdrEndS.data).length - hdrEndS.data.length = cap.data.length from by
      simp [List.length_append]]
    exact List.take_left _ _
  rw [hr, strMkData]
  exact h

theorem seekStep_headerFor (root : PyPath) (cap : String)
    (h1 : pyStrip cap = cap)
    (h2 : pathSafe root (joinPath root (splitPath cap)) = true) :
    seekStep root (headerFor cap) = PState.afterHeader cap (joinPath root (splitPath cap)) := by
  simp [seekStep, isHeaderLine_headerFor, capturePath_headerFor cap h1, h2]

theorem isFenceLine_fenceS : isFenceLine fenceS = true := by decide

/-! ### Run lemmas for the scanning loop -/

theorem runFrom_header (root : PyPath) (cap : String) (rest : List String)
    (h1 : pyStrip cap = cap)
    (h2 : pathSafe root (joinPath root (splitPath cap)) = true) :
    runFrom root PState.seeking (headerFor cap :: rest)
      = runFrom root (PState.afterHeader cap (joinPath root (splitPath cap))) rest := by
  simp only [runFrom, lineStep, seekStep_headerFor root cap h1 h2, outSeq_zero_left]

theorem runFrom_open_fence (root : PyPath) (rel : String) (tgt : PyPath) (rest : List String) :
    runFrom root (PState.afterHeader rel tgt) (fenceS :: rest)
      = runFrom root (PState.collecting rel tgt []) rest := by
  simp only [runFrom, lineStep, isFenceLine_fenceS, if_true, outSeq_zero_left]

theorem runFrom_collect (root : PyPath) (rel : String) (tgt : PyPath) (body : List String) :
    ∀ acc rest : List String, (∀ l ∈ body, isFenceLine l = false) →
      runFrom root (PState.collecting rel tgt acc) (body ++ fenceS :: rest)
        = outSeq ⟨1, [], [(tgt, nlJoin (acc ++ body))]⟩ (runFrom root PState.seeking rest) := by
  induction body with
  | nil =>
    intro acc rest _
    simp [runFrom, lineStep, isFenceLine_fenceS]
  | cons l ls ih =>
    intro acc rest h
    have hl : isFenceLine l = false := h l (by simp)
    have ih2 := ih (acc ++ [l]) rest (fun x hx => h x (by simp [hx]))
    simp only [List.cons_append, runFrom, lineStep, hl, Bool.false_eq_true, if_false,
      outSeq_zero_left, List.append_eq]
    rw [ih2]
    simp [List.append_assoc]

theorem runFrom_trunc (root : PyPath) (rel : String) (tgt : PyPath) (body : List String) :
    ∀ acc : List String, (∀ l ∈ body, isFenceLine l = false) →
      runFrom root (PState.collecting rel tgt acc) body = ⟨0, [incompleteMsg rel], []⟩ := by
  induction body with
  | nil => intro acc _; simp [runFrom, endOut]
  | cons l ls ih =>
    intro acc h
    have hl : isFenceLine l = false := h l (by simp)
    simp only [runFrom, lineStep, hl, Bool.false_eq_true, if_false]
    rw [ih (acc ++ [l]) (fun x hx => h x (by simp [hx]))]
    simp [outSeq, outZero]

theorem runFrom_seek_skip (root : PyPath) (pre : List String) :
    ∀ rest : List String, (∀ l ∈ pre, isHeaderLine l = false) →
      runFrom root PState.seeking (pre ++ rest) = runFrom root PState.seeking rest := by
  induction pre with
  | nil => intro rest _; simp
  | cons l ls ih =>
    intro rest h
    have hl : isHeaderLine l = false := h l (by simp)
    simp only [List.cons_append, runFrom, lineStep, seekStep, hl, Bool.false_eq_true, if_false,
      outSeq_zero_left, List.append_eq]
    exact ih rest (fun x hx => h x (by simp [hx]))

theorem blockRun (root : PyPath) (cap : String) (body : List String)
    (h1 : pyStrip cap = cap)
    (h2 : pathSafe root (joinPath root (splitPath cap)) = true)
    (h3 : ∀ l ∈ body, isFenceLine l = false) :
    extractApply root (headerFor cap :: fenceS :: (body ++ [fenceS]))
      = ⟨1, [], [(joinPath root (splitPath cap), nlJoin body)]⟩ := by
  unfold extractApply
  rw [runFrom_header root cap _ h1 h2, runFrom_open_fence]
  have hc := runFrom_collect root cap (joinPath root (splitPath cap)) body [] [] h3
  simpa [runFrom, endOut, outSeq, outZero] using hc

/-! ### Safety invariant of the scanning loop -/

theorem stateSafe_seekStep (root : PyPath) (l : String) : stateSafe root (seekStep root l) := by
  unfold seekStep
  by_cases h1 : isHeaderLine l = true
  · simp only [h1, if_true]
    by_cases h2 : pathSafe root (joinPath root (splitPath (capturePath l))) = true
    · simp [h2, stateSafe]
    · simp [h2, stateSafe]
  · simp [h1, stateSafe]

theorem stateSafe_lineStep (root : PyPath) (st : PState) (l : String)
    (h : stateSafe root st) : stateSafe root (lineStep root st l).1 := by
  cases st with
  | seeking => simpa [lineStep] using stateSafe_seekStep root l
  | afterHeader rel tgt =>
    by_cases hf : isFenceLine l = true
    · simp only [lineStep, hf, if_true]
      simpa [stateSafe] using h
    · simp only [lineStep, hf, Bool.false_eq_true, if_false]
      simpa using stateSafe_seekStep root l
  | collecting rel tgt acc =>
    by_cases hf : isFenceLine l = true
    · simp [lineStep, hf, stateSafe]
    · simp only [lineStep, hf, Bool.false_eq_true, if_false]
      simpa [stateSafe] using h

theorem writes_lineStep (root : PyPath) (st : PState) (l : String)
    (h : stateSafe root st) (p : PyPath) (c : String)
    (hm : (p, c) ∈ ((lineStep root st l).2).writes) : pathSafe root p = true := by
  cases st with
  | seeking => simp [lineStep, outZero] at hm
  | afterHeader rel tgt =>
    by_cases hf : isFenceLine l = true <;> simp [lineStep, hf, outZero] at hm
  | collecting rel tgt acc =>
    by_cases hf : isFenceLine l = true
    · simp only [lineStep, hf, if_true] at hm
      simp at hm
      rcases hm with ⟨hp, _⟩
      subst hp
      simpa [stateSafe] using h
    · simp [lineStep, hf, outZero] at hm

theorem runFrom_writes_safe (root : PyPath) (ls : List String) :
    ∀ st : PState, stateSafe root st → ∀ (p : PyPath) (c : String),
      (p, c) ∈ (runFrom root st ls).writes → pathSafe root p = true := by
  induction ls with
  | nil =>
    intro st hst p c hm
    cases st <;> simp [runFrom, endOut, outZero] at hm
  | cons l ls2 ih =>
    intro st hst p c hm
    simp only [runFrom, outSeq] at hm
    rcases List.mem_append.mp hm with h1 | h2
    · exact writes_lineStep root st l hst p c h1
    · exact ih (lineStep root st l).1 (stateSafe_lineStep root st l hst) p c h2

/-! ### Suggestion-filter lemmas -/

theorem filter_all_of_nonpos (m : Int) (hm : m ≤ 0) :
    suggestedCandidates.filter (fun v => m < candidateVal v) = suggestedCandidates := by
  have h11 : candidateVal ("11") = 11 := by decide
  have h17 : candidateVal ("17") = 17 := by decide
  have h21 : candidateVal ("21") = 21 := by decide
  have d1 : decide (m < candidateVal ("11")) = true := by
    rw [h11]; exact decide_eq_true (by omega)
  have d2 : decide (m < candidateVal ("17")) = true := by
    rw [h17]; exact decide_eq_true (by omega)
  have d3 : decide (m < candidateVal ("21")) = true := by
    rw [h21]; exact decide_eq_true (by omega)
  simp [suggestedCandidates, List.filter_cons, d1, d2, d3]

theorem pyTrunc_nonpos (n : Int) (d : Nat) (hn : ¬ 0 ≤ n) : pyTrunc (n, d) ≤ 0 := by
  simp only [pyTrunc]
  rw [if_neg hn]
  exact neg_nonpos.mpr (Int.natCast_nonneg _)

theorem floorParts_nonpos (n : Int) (d : Nat) (hn : ¬ 0 ≤ n) : floorParts (n, d) ≤ 0 := by
  simp only [floorParts]
  rw [if_neg hn]
  by_cases hr : (-n).toNat % 10 ^ d = 0
  · rw [if_pos hr]
    exact neg_nonpos.mpr (Int.natCast_nonneg _)
  · rw [if_neg hr]
    have h0 : (0 : Int) ≤ ((-n).toNat / 10 ^ d : Nat) := Int.natCast_nonneg _
    omega

/-! ### File-collector membership lemma -/

theorem c9FunSome (root : String) (f : FsFile) (p : String) :
    ((if pyEnds f.fname javaSufS then
        if !(pyContains (dirPathOf root f.dirs) buildS)
            && !(pyContains (dirPathOf root f.dirs) targetS) then
          some (joinStr (dirPathOf root f.dirs) f.fname)
        else none
      else none) = some p)
    ↔ (pyEnds f.fname javaSufS = true
        ∧ pyContains (dirPathOf root f.dirs) buildS = false
        ∧ pyContains (dirPathOf root f.dirs) targetS = false
        ∧ p = joinStr (dirPathOf root f.dirs) f.fname) := by
  by_cases h1 : pyEnds f.fname javaSufS = true <;>
    by_cases hb : pyContains (dirPathOf root f.dirs) buildS = true <;>
      by_cases ht : pyContains (dirPathOf root f.dirs) targetS = true <;>
        simp [h1, hb, ht, eq_comm]

/-! ### Claims -/

/-- C1: every parsed block whose captured header path resolves, after
canonicalizing both paths, to an absolute path not contained in the
working-copy root is discarded: no write ever targets a path outside the
root (every recorded write satisfies the containment test), and on the
concrete completion text whose single header names `../../etc/passwd`
against the root `/tmp/proj` the pass writes nothing, counts nothing and
records no error. -/
theorem c1_path_containment :
    (∀ (root : PyPath) (lines : List String) (p : PyPath) (c : String),
        root.isAbs = true → (p, c) ∈ (extractApply root lines).writes →
        pathSafe root p = true)
    ∧ extractApply projRootP c1CexLines = outZero := by
  constructor
  · intro root lines p c _ hm
    exact runFrom_writes_safe root lines PState.seeking (by simp [stateSafe]) p c hm
  · decide

theorem c1_path_containment_witness :
    pathSafe projRootP (joinPath projRootP (splitPath relSrcAS)) = true :=
  c1_path_containment.1 projRootP c1GoodLines
    (joinPath projRootP (splitPath relSrcAS)) xLineS (by decide) (by decide)

/-- C2: a completion text none of whose lines carries both the exact header
prefix and the exact header suffix produces no writes, a zero counter and
an empty error list; in particular a response in the fence-plus-inline-path
format that the prompt itself instructs is never extracted. -/
theorem c2_no_header_no_extraction :
    ∀ (root : PyPath) (lines : List String),
      (∀ l ∈ lines, isHeaderLine l = false) → extractApply root lines = outZero := by
  intro root lines h
  have hs := runFrom_seek_skip root lines [] h
  simpa [extractApply, runFrom, endOut] using hs

theorem c2_no_header_no_extraction_witness :
    extractApply projRootP c2InstructedLines = outZero :=
  c2_no_header_no_extraction projRootP c2InstructedLines (by decide)

/-- C3: a completion text consisting of exactly one well-formed block
(header with a contained path, opening fence, fence-free body, closing
fence) makes the pass write exactly the body joined with newline separators
to the resolved path and report one written file and no errors. -/
theorem c3_round_trip (root : PyPath) (cap : String) (body : List String)
    (h1 : pyStrip cap = cap)
    (h2 : pathSafe root (joinPath root (splitPath cap)) = true)
    (h3 : ∀ l ∈ body, isFenceLine l = false) :
    extractApply root (headerFor cap :: fenceS :: (body ++ [fenceS]))
      = ⟨1, [], [(joinPath root (splitPath cap), nlJoin body)]⟩ :=
  blockRun root cap body h1 h2 h3

theorem c3_round_trip_witness :
    extractApply projRootP (headerFor relSrcAS :: fenceS :: ([xLineS] ++ [fenceS]))
      = ⟨1, [], [(joinPath projRootP (splitPath relSrcAS), nlJoin [xLineS])]⟩ :=
  c3_round_trip projRootP relSrcAS [xLineS] (by decide) (by decide) (by decide)

/-- C4: when the last block of the completion text has a valid contained
header and an opening fence but no closing fence before end of input, the
pass writes nothing for that block, counts nothing, records exactly one
error naming that file, and scans nothing further (the truncated block runs
to the end of the input). -/
theorem c4_truncation (root : PyPath) (pre : List String) (cap : String) (body : List String)
    (hp : ∀ l ∈ pre, isHeaderLine l = false)
    (h1 : pyStrip cap = cap)
    (h2 : pathSafe root (joinPath root (splitPath cap)) = true)
    (h3 : ∀ l ∈ body, isFenceLine l = false) :
    extractApply root (pre ++ (headerFor cap :: fenceS :: body))
      = ⟨0, [incompleteMsg cap], []⟩ := by
  unfold extractApply
  rw [runFrom_seek_skip root pre (headerFor cap :: fenceS :: body) hp]
  rw [runFrom_header root cap (fenceS :: body) h1 h2]
  rw [runFrom_open_fence]
  exact runFrom_trunc root cap (joinPath root (splitPath cap)) body [] h3

theorem c4_truncation_witness :
    extractApply projRootP ([xLineS] ++ (headerFor relSrcAS :: fenceS :: [xLineS]))
      = ⟨0, [incompleteMsg relSrcAS], []⟩ :=
  c4_truncation projRootP [xLineS] relSrcAS [xLineS]
    (by decide) (by decide) (by decide) (by decide)

/-- C5: the extraction-and-apply pass is a total function of the raw
completion string (modelled by a terminating structural recursion, so no
exception escapes it), and the final reply is the with-errors shape exactly
when the per-file error list is non-empty, the plain success shape
otherwise; no other reply shape exists for this stage. -/
theorem c5_no_failure_state (root : PyPath) (text : String) :
    (replyOf (upgradeApplyText root text)
        = UpgradeReply.withErrors (upgradeApplyText root text).errors
      ↔ (upgradeApplyText root text).errors ≠ [])
    ∧ ((upgradeApplyText root text).errors = []
      → replyOf (upgradeApplyText root text)
          = UpgradeReply.ok (upgradeApplyText root text).written) := by
  by_cases h : (upgradeApplyText root text).errors = [] <;> simp [replyOf, h]

theorem c5_no_failure_state_witness :
    replyOf (upgradeApplyText projRootP emptyS)
      = UpgradeReply.ok (upgradeApplyText projRootP emptyS).written :=
  (c5_no_failure_state projRootP emptyS).2 (by decide)

/-- C6 counterexample: the line directly after the header in the concrete
input is a fence with a leading space, hence not exactly the literal
three-backtick token, yet the block proceeds and a file is written; under
the claim as stated the parser would have returned to seeking and written
nothing. -/
theorem c6_fence_exact_cex :
    (wsFenceS == fenceS) = false
    ∧ extractApply projRootP c6CexLines
        = ⟨1, [], [(joinPath projRootP (splitPath aJavaS), xLineS)]⟩
    ∧ extractApply projRootP c6CexLines ≠ outZero := by decide

/-- C6 amended: the block proceeds exactly when the line after the header
strips to the three-backtick token (whitespace around the token is
tolerated, a language tag is not); otherwise the parser is back in seeking
on that very line, consuming nothing beyond the header; while collecting,
lines are accumulated verbatim until a line that strips to the token. -/
theorem c6_fence_gate (root : PyPath) (rel : String) (tgt : PyPath)
    (l : String) (ls acc : List String) :
    (isFenceLine l = false →
      runFrom root (PState.afterHeader rel tgt) (l :: ls)
        = runFrom root PState.seeking (l :: ls))
    ∧ (isFenceLine l = true →
      lineStep root (PState.afterHeader rel tgt) l
        = (PState.collecting rel tgt [], outZero))
    ∧ (isFenceLine l = false →
      lineStep root (PState.collecting rel tgt acc) l
        = (PState.collecting rel tgt (acc ++ [l]), outZero))
    ∧ (isFenceLine l = true →
      lineStep root (PState.collecting rel tgt acc) l
        = (PState.seeking, ⟨1, [], [(tgt, nlJoin acc)]⟩)) := by
  refine ⟨?_, ?_, ?_, ?_⟩ <;> intro h <;>
    simp [runFrom, lineStep, h]

theorem c6_fence_gate_witness :
    runFrom projRootP (PState.afterHeader relSrcAS projRootP) [xLineS]
      = runFrom projRootP PState.seeking [xLineS] :=
  (c6_fence_gate projRootP relSrcAS projRootP xLineS [] []).1 (by decide)

/-- C7: over the fixed candidate list, a detected version that parses under
the decimal grammar yields exactly the candidates strictly greater than its
floor, and an unparseable one yields the unfiltered list; concretely 1.8
keeps all of 11, 17, 21, the value 17 keeps only 21, the value 21 keeps
nothing, and the sentinel Unknown keeps the full list. -/
theorem c7_suggestion_filter :
    (∀ (v : String) (n : Int) (d : Nat), pyFloatParse v = some (n, d) →
        filterSuggestions v
          = suggestedCandidates.filter (fun c => floorParts (n, d) < candidateVal c))
    ∧ (∀ v : String, pyFloatParse v = none → filterSuggestions v = suggestedCandidates)
    ∧ filterSuggestions oneEightS = suggestedCandidates
    ∧ filterSuggestions sevTeenS = [twentyOneS]
    ∧ filterSuggestions twentyOneS = []
    ∧ filterSuggestions unknownS = suggestedCandidates := by
  refine ⟨?_, ?_, by decide, by decide, by decide, by decide⟩
  · intro v n d h
    simp only [filterSuggestions, h]
    by_cases hn : (0 : Int) ≤ n
    · have he : floorParts (n, d) = pyTrunc (n, d) := by
        simp [floorParts, pyTrunc, hn]
      simp only [he]
    · rw [filter_all_of_nonpos (pyTrunc (n, d)) (pyTrunc_nonpos n d hn),
        filter_all_of_nonpos (floorParts (n, d)) (floorParts_nonpos n d hn)]
  · intro v h
    simp only [filterSuggestions, h]

theorem c7_suggestion_filter_witness :
    filterSuggestions oneEightS
      = suggestedCandidates.filter (fun c => floorParts (18, 1) < candidateVal c) :=
  c7_suggestion_filter.1 oneEightS 18 1 (by decide)

/-- C8 counterexample: a manifest carrying a non-empty
maven.compiler.source property whose value is the literal string Unknown
together with a non-empty java.version property makes detection return the
java.version value, not the maven.compiler.source value: the first loop
leaves the sentinel in place, so the second loop runs. -/
theorem c8_priority_cex :
    (∃ p ∈ c8Props, childText p mcsS = some (some unknownS))
    ∧ unknownS ≠ emptyS
    ∧ (∃ p ∈ c8Props, childText p javaVerS = some (some sevTeenS))
    ∧ sevTeenS ≠ emptyS
    ∧ mvnDetect c8Props = sevTeenS
    ∧ mvnDetect c8Props ≠ pyStrip unknownS := by decide

/-- C8 amended: whenever some properties element holds a non-empty
maven.compiler.source text, the first scanning loop finds one, and the
detected version equals its stripped value provided that value differs from
the sentinel string Unknown; java.version is consulted only when no
maven.compiler.source value is found or when the found value equals the
sentinel. -/
theorem c8_mcs_priority :
    (∀ (props : List PropsElem) (t : String),
        firstPropText mcsS props = some t → t ≠ unknownS → mvnDetect props = t)
    ∧ (∀ props : List PropsElem,
        (∃ p ∈ props, ∃ t, childText p mcsS = some (some t) ∧ t ≠ emptyS) →
        ∃ t, firstPropText mcsS props = some t) := by
  constructor
  · intro props t h ht
    simp [mvnDetect, h, ht]
  · intro props
    induction props with
    | nil =>
      intro hex
      rcases hex with ⟨p, hp, _⟩
      simp at hp
    | cons p ps ih =>
      intro hex
      cases hgt : goodText (childText p mcsS) with
      | some u => exact ⟨pyStrip u, by simp [firstPropText, hgt]⟩
      | none =>
        rcases hex with ⟨q, hq, t, hct, hne⟩
        rcases List.mem_cons.mp hq with hq1 | hq2
        · subst hq1
          rw [hct] at hgt
          simp [goodText, hne] at hgt
        · obtain ⟨u, hu⟩ := ih ⟨q, hq2, t, hct, hne⟩
          exact ⟨u, by simp [firstPropText, hgt, hu]⟩

theorem c8_mcs_priority_witness : mvnDetect c8WitProps = sevTeenS :=
  c8_mcs_priority.1 c8WitProps sevTeenS (by decide) (by decide)

/-- C9 counterexample: a java file inside a directory named builder, which
has no build or target path component, is nevertheless excluded by the
collector because the dirpath substring test matches build inside builder;
the component-based collector of the claim would return it. -/
theorem c9_collector_cex :
    findJavaFiles projRootS c9CexFs = []
    ∧ specJavaFiles projRootS c9CexFs = [c9CexPathS]
    ∧ findJavaFiles projRootS c9CexFs ≠ specJavaFiles projRootS c9CexFs := by decide

/-- C9 amended: the collector returns exactly the joined paths of the files
whose name ends in the java suffix and whose containing directory path
string contains neither build nor target as a substring (a substring test
on the dirpath, root prefix included, not a path-component test). -/
theorem c9_collector_substring (root : String) (fs : List FsFile) (p : String) :
    p ∈ findJavaFiles root fs
      ↔ ∃ f, f ∈ fs ∧ pyEnds f.fname javaSufS = true
          ∧ pyContains (dirPathOf root f.dirs) buildS = false
          ∧ pyContains (dirPathOf root f.dirs) targetS = false
          ∧ p = joinStr (dirPathOf root f.dirs) f.fname := by
  simp only [findJavaFiles, List.mem_filterMap]
  constructor
  · rintro ⟨f, hf, hs⟩
    exact ⟨f, hf, (c9FunSome root f p).mp hs⟩
  · rintro ⟨f, hf, hc⟩
    exact ⟨f, hf, (c9FunSome root f p).mpr hc⟩

/-- C10: a header whose captured path is itself absolute and canonically
inside the working-copy root is accepted: joining the absolute path against
the root discards the root, and the well-formed block is written to that
absolute path unchanged, so echoes of the absolute-path input labels are
applied in place. -/
theorem c10_absolute_path (root : PyPath) (cap : String) (body : List String)
    (h0 : (splitPath cap).isAbs = true)
    (h1 : pyStrip cap = cap)
    (h2 : pathSafe root (splitPath cap) = true)
    (h3 : ∀ l ∈ body, isFenceLine l = false) :
    joinPath root (splitPath cap) = splitPath cap
    ∧ extractApply root (headerFor cap :: fenceS :: (body ++ [fenceS]))
        = ⟨1, [], [(splitPath cap, nlJoin body)]⟩ := by
  have hj : joinPath root (splitPath cap) = splitPath cap := by
    simp [joinPath, h0]
  refine ⟨hj, ?_⟩
  have hb := blockRun root cap body h1 (by rw [hj]; exact h2) h3
  rwa [hj] at hb

theorem c10_absolute_path_witness :
    joinPath projRootP (splitPath absAS) = splitPath absAS
    ∧ extractApply projRootP (headerFor absAS :: fenceS :: ([xLineS] ++ [fenceS]))
        = ⟨1, [], [(splitPath absAS, nlJoin [xLineS])]⟩ :=
  c10_absolute_path projRootP absAS [xLineS] (by decide) (by decide) (by decide) (by decide)
